import Mathlib

/-!
Verification development for the `enigma` rotor-cipher simulator.

The embedding below translates the TypeScript sources
(`src/components/Machine.ts`, `src/components/Reflector.ts`, the `Stator`
class shipped alongside `src/models/ModelA133.ts`) into executable Lean
definitions.  Machine state is passed explicitly: every mutating method
returns the updated component.  JavaScript runtime exceptions (spreading
`undefined`, calling a missing method, indexing an empty string) are
modelled with `Except`/`Option` error values carrying the message of the
exception the JavaScript engine would raise.

The repository files `Wheel.ts`, `Plugboard.ts`, `common.ts` and
`alphabet.ts` are not part of the provided sources; the corresponding
definitions are modelled from the specification and say so in their doc
comments.
-/

namespace Enigma

/-- Modelled from the spec: `circular` of the missing `common.ts` —
"circular-index normalization (`(i mod N)` normalized into `[0,N)` for any
integer `i`, including negatives)". -/
def circular (i : Int) (n : Nat) : Nat :=
  (i % (n : Int)).toNat

/-- Modelled from the spec: `findDuplicates` of the missing `common.ts` —
"duplicate-finder over an array returning (position, value) pairs"; one
finding is produced for every position whose value already occurred at an
earlier position. -/
def findDuplicates (xs : List Nat) : List (Nat × Nat) :=
  xs.enum.filter fun p => (xs.take p.1).contains p.2

/-- Modelled from the spec: `symbolToIndex` of the missing `alphabet.ts` —
maps a symbol to its alphabet index, "substituting `unknownFallback`'s
index for symbols outside the alphabet". -/
def getCharacterIndex (c : Char) (alphabet : List Char) (fallback : Char) : Nat :=
  match alphabet.findIdx? fun a => a = c with
  | some i => i
  | none => alphabet.findIdx fun a => a = fallback

/-- Modelled from the spec: `indexToSymbol` of the missing `alphabet.ts` —
maps an index back to a symbol, wrapping "consistently with the Machine's
own modulo convention" and falling back for out-of-range lookups. -/
def getCharacterFromIndex (i : Nat) (alphabet : List Char) (fallback : Char) : Char :=
  alphabet.getD (circular (i : Int) alphabet.length) fallback

/-- The `Stator` class (source: the copy bundled with `ModelA133.ts`). -/
structure Stator where
  label : String
  numCharacters : Nat
  mapping : List Nat
  deriving Repr, DecidableEq

/-- The `Stator` constructor: label nonempty, positive character count, mapping
length must equal `numChars`; violations raise `TypeError`. -/
def mkStator (label : String) (numChars : Nat) (map : List Nat) : Except String Stator :=
  if label.length < 1 then
    Except.error "TypeError: Stator constructed with parameter 1 \"label\" being empty."
  else if numChars ≤ 0 then
    Except.error "TypeError: Stator constructed with parameter 2 \"numChars\" being 0 or under."
  else if map.length ≠ numChars then
    Except.error "TypeError: Stator constructed with parameter 3 \"map\" being empty, or not of the specified length."
  else
    Except.ok { label := label, numCharacters := numChars, mapping := map }

/-- Source `Stator.encode`: `this.mapping[ circular(index, this.numCharacters) ]`. -/
def Stator.encode (s : Stator) (index : Nat) : Nat :=
  s.mapping.getD (circular (index : Int) s.numCharacters) 0

/-- Source `Stator.validate`, return type `OptErrors`: `undefined` (here `none`)
when there are no duplicates, otherwise one error per duplicate. -/
def Stator.validate (s : Stator) : Option (List String) :=
  let dups := findDuplicates s.mapping
  if dups.length ≠ 0 then
    some (dups.map fun pv =>
      "Stator.mapping[" ++ toString pv.1 ++ "] is a duplicate value " ++ toString pv.2)
  else
    none

/-- The `Reflector` class (source: `Reflector.ts`).  Its mutable private
fields `#startingPosition` and `#position` are plain fields here.  Note the
class has `setup`, `encode`, `advance` and `validate` methods but *no*
`reset` method. -/
structure Reflector where
  label : String
  numCharacters : Nat
  wiring : List Nat
  moving : Bool
  startingPosition : Nat
  position : Nat
  deriving Repr, DecidableEq

/-- The `Reflector` constructor: checks label, positive `numChars`, wiring
length; defaults `#startingPosition = 0`, `#position = 0`. -/
def mkReflector (label : String) (numChars : Nat) (wiring : List Nat) (moving : Bool) :
    Except String Reflector :=
  if label.length < 1 then
    Except.error "TypeError: Reflector constructed with parameter 1 \"label\" being empty."
  else if numChars ≤ 0 then
    Except.error "TypeError: Reflector constructed with parameter 2 \"numChars\" being 0 or under."
  else if wiring.length ≠ numChars then
    Except.error "TypeError: Reflector constructed with parameter 3 \"wiring\" being invalid."
  else
    Except.ok { label := label, numCharacters := numChars, wiring := wiring,
                moving := moving, startingPosition := 0, position := 0 }

/-- Source `Reflector.setup`: `#startingPosition = circular(startPosition, numCharacters);
#position = #startingPosition`. -/
def Reflector.setup (r : Reflector) (startPosition : Int) : Reflector :=
  let sp := circular startPosition r.numCharacters
  { r with startingPosition := sp, position := sp }

/-- Source `Reflector.encode`: `wiring[ circular(index + #position, numCharacters) ]`. -/
def Reflector.encode (r : Reflector) (index : Nat) : Nat :=
  r.wiring.getD (circular ((index : Int) + (r.position : Int)) r.numCharacters) 0

/-- Source `Reflector.advance`: no-op when `moving` is false, otherwise
`#position = circular(#position + steps, numCharacters)`. -/
def Reflector.advance (r : Reflector) (steps : Int) : Reflector :=
  if r.moving = false then r
  else { r with position := circular ((r.position : Int) + steps) r.numCharacters }

/-- Source `Reflector.validate` (`OptErrors`): `undefined` (`none`) when there are
no duplicates. -/
def Reflector.validate (r : Reflector) : Option (List String) :=
  let dups := findDuplicates r.wiring
  if dups.length ≠ 0 then
    some (dups.map fun pv =>
      "Reflector.wiring[" ++ toString pv.1 ++ "] is a duplicate value " ++ toString pv.2)
  else
    none

/-- Modelled from the spec: the `Wheel` (rotor) class of the missing
`Wheel.ts` — "{label, numCharacters, wiring, notch positions, startingPosition,
currentPosition}"; notch markers may be indices or symbols, represented here
as position indices. -/
structure Wheel where
  label : String
  numCharacters : Nat
  wiring : List Nat
  notches : List Nat
  startingPosition : Nat
  position : Nat
  deriving Repr, DecidableEq

/-- Modelled from the spec: `advance(steps)` — "currentPosition =
(currentPosition + steps) mod N. Always legal; no guard." -/
def Wheel.advance (w : Wheel) (steps : Int) : Wheel :=
  { w with position := circular ((w.position : Int) + steps) w.numCharacters }

/-- Modelled from the spec: `atNotch` — true iff the current position is a
member of this rotor's notch set. -/
def Wheel.atNotch (w : Wheel) : Bool :=
  w.notches.contains w.position

/-- Modelled from the spec: `encode(index)` — "applies the rotor's
rotational offset, then the wiring table: `wiring[(index + currentPosition)
mod N]`". -/
def Wheel.encode (w : Wheel) (index : Nat) : Nat :=
  w.wiring.getD (circular ((index : Int) + (w.position : Int)) w.numCharacters) 0

/-- Modelled from the spec: `reset()` — "currentPosition = startingPosition". -/
def Wheel.reset (w : Wheel) : Wheel :=
  { w with position := w.startingPosition }

/-- Modelled from the spec: `validate()` — "same duplicate check as §4.1,
scoped to this rotor's wiring", following the `OptErrors` convention of the
sibling `Stator.validate` and `Reflector.validate`. -/
def Wheel.validate (w : Wheel) : Option (List String) :=
  let dups := findDuplicates w.wiring
  if dups.length ≠ 0 then
    some (dups.map fun pv =>
      "Wheel.wiring[" ++ toString pv.1 ++ "] is a duplicate value " ++ toString pv.2)
  else
    none

/-- Modelled from the spec (§4.3 directionality caveat): the *inverse*
substitution of a rotor — given output `j`, recover the input: position of
`j` in the wiring table, minus the rotational offset, modulo `N`.  This is
the contract the spec demands on the return pass; it is used only to
compare against what the code actually does. -/
def Wheel.encodeInverse (w : Wheel) (index : Nat) : Nat :=
  circular (((w.wiring.findIdx fun v => v = index) : Int) - (w.position : Int)) w.numCharacters

/-- Modelled from the spec: the `Plugboard` class of the missing
`Plugboard.ts` — a wiring table applied by "single table lookup". -/
structure Plugboard where
  numCharacters : Nat
  wiring : List Nat
  deriving Repr, DecidableEq

/-- Modelled from the spec: `Plugboard.encode` — "single table lookup, no
positional offset", with the index normalization shared by every indexed
component. -/
def Plugboard.encode (p : Plugboard) (index : Nat) : Nat :=
  p.wiring.getD (circular (index : Int) p.numCharacters) 0

/-- Modelled from the spec: `Plugboard.validate` — the §4.1 duplicate
check, following the `OptErrors` convention of the sibling components. -/
def Plugboard.validate (p : Plugboard) : Option (List String) :=
  let dups := findDuplicates p.wiring
  if dups.length ≠ 0 then
    some (dups.map fun pv =>
      "Plugboard.wiring[" ++ toString pv.1 ++ "] is a duplicate value " ++ toString pv.2)
  else
    none

/-- One step record of a diagnostic `Trace` (source: `Machine.ts` usage of
the `TraceStep` interface; fields that a given step does not set stay
`none`). -/
structure TraceStep where
  op : String
  component : Option String := none
  input : Option Nat := none
  inputChar : Option Char := none
  output : Option Nat := none
  outputChar : Option Char := none
  msg : Option String := none
  deriving Repr, DecidableEq

/-- Diagnostic `Trace` of one processed symbol (source: `Machine.ts` usage
of the `Trace` interface). -/
structure Trace where
  inputRaw : List Char
  inputChar : Option Char := none
  inputIndex : Option Nat := none
  steps : List TraceStep
  outputIndex : Option Nat := none
  outputChar : Option Char := none
  deriving Repr, DecidableEq

/-- The `Machine` class (source: `Machine.ts`).  JavaScript strings are
lists of characters here; `reflector` and `plugboard` are optional. -/
structure Machine where
  label : String
  alphabet : List Char
  numCharacters : Nat
  entryWheel : Stator
  wheels : List Wheel
  reflector : Option Reflector
  plugboard : Option Plugboard
  deriving Repr, DecidableEq

/-- The `Machine` constructor: rejects an empty label or alphabet, stores the
alphabet uppercased (`alphabet.toUpperCase()`) and derives `numCharacters`
from it. -/
def mkMachine (label : String) (alphabet : List Char) (etw : Stator) (wheels : List Wheel)
    (ukw : Option Reflector) (plugboard : Option Plugboard) : Except String Machine :=
  if label.length ≤ 0 then
    Except.error "TypeError: Machine constructed with an empty 'label' parameter [0]."
  else if alphabet.length = 0 then
    Except.error "TypeError: Machine constructed with an invalid 'alphabet' parameter [1]."
  else
    let alpha := alphabet.map Char.toUpper
    Except.ok { label := label, alphabet := alpha, numCharacters := alpha.length,
                entryWheel := etw, wheels := wheels, reflector := ukw, plugboard := plugboard }

/-- Source `if(this.plugboard) index = this.plugboard.encode(index)` — the
plugboard substitution applied only when a plugboard is installed. -/
def plugboardApply (p : Option Plugboard) (index : Nat) : Nat :=
  match p with
  | some pb => pb.encode index
  | none => index

/-- The `this.wheels.forEach(...)` loop of `processCharacter`: per wheel,
first the advance decision (wheel 0 always advances; wheel `ind > 0`
advances when `this.wheels[ind-1].atNotch` holds *at this point of the
loop*, i.e. after wheel `ind-1` was already advanced or skipped), then the
encode of the running index through the (possibly advanced) wheel.
`first` tells whether this is wheel 0; `prevNotch` is the at-notch state of
the already-updated previous wheel.  Returns the updated wheels, the index
after the forward pass, and the emitted trace steps. -/
def stepEncodeWheelsGo (first prevNotch : Bool) (ind : Nat) (index : Nat) :
    List Wheel → List Wheel × Nat × List TraceStep
  | [] => ([], index, [])
  | w :: rest =>
    let w' := if first || prevNotch then w.advance 1 else w
    let advStep : TraceStep :=
      { op := "Wheel Advance",
        msg := some (if first then "First wheel \"" ++ w.label ++ "\" advanced"
          else if prevNotch then "Wheel " ++ toString ind ++ " \"" ++ w.label ++ "\" advanced because of notch"
          else "Wheel " ++ toString ind ++ " \"" ++ w.label ++ "\" did not advance") }
    let index' := w'.encode index
    let encStep : TraceStep :=
      { op := "Encode", component := some ("Wheel " ++ toString ind),
        input := some index, output := some index' }
    let res := stepEncodeWheelsGo false w'.atNotch (ind + 1) index' rest
    (w' :: res.1, res.2.1, advStep :: encStep :: res.2.2)

/-- The `forEachReverse` return pass of `processCharacter`: the wheels are
traversed in decreasing index order, each applying the *same* `encode`
substitution as on the forward pass.  `ind` is the index of the head
wheel. -/
def backwardPassGo (ind : Nat) (index : Nat) : List Wheel → Nat × List TraceStep
  | [] => (index, [])
  | w :: rest =>
    let res := backwardPassGo (ind + 1) index rest
    let index' := w.encode res.1
    let encStep : TraceStep :=
      { op := "Encode Reverse", component := some ("Wheel " ++ toString ind),
        input := some res.1, output := some index' }
    (index', res.2 ++ [encStep])

/-- Source `Machine.processCharacter(char, unknownAs)` (source: `Machine.ts`).
Order of operations exactly as in the source: reflector presence check;
`char[0].toUpperCase()` (a `TypeError` when `char` is the empty string);
the — unreachable for a single character — input length guard with its
documented error message; alphabet lookup; plugboard; stator; the
interleaved wheel advance/encode loop; reflector advance (when moving);
reflector; wheels in reverse; stator; plugboard.  Returns the output
symbol, the trace, and the machine with its updated wheel and reflector
state. -/
def processCharacter (m : Machine) (char : List Char) (unknownAs : Char) :
    Except String (Char × Trace × Machine) :=
  match m.reflector with
  | none =>
    Except.error ("Machine \"" ++ m.label ++ "\" does not have a reflector installed.")
  | some refl =>
    match char with
    | [] =>
      Except.error "TypeError: Cannot read properties of undefined (reading 'toUpperCase')"
    | c :: _ =>
      let input := c.toUpper
      let inputStr : List Char := [input]
      if inputStr.length = 0 ∨ inputStr.length > 1 then
        Except.error "Machine.encode() recieved a character that was either empty, or longer than 1 character."
      else
        let index0 := getCharacterIndex input m.alphabet unknownAs
        let index1 := plugboardApply m.plugboard index0
        let plugSteps1 : List TraceStep :=
          match m.plugboard with
          | some _ => [{ op := "Encode", component := some "Plugboard",
                         input := some index0, output := some index1 }]
          | none => []
        let index2 := m.entryWheel.encode index1
        let statorStep1 : TraceStep :=
          { op := "Encode", component := some "Stator",
            input := some index1, output := some index2 }
        let fwd := stepEncodeWheelsGo true false 0 index2 m.wheels
        let wheels' := fwd.1
        let index3 := fwd.2.1
        let refl' := if refl.moving then refl.advance 1 else refl
        let reflAdvSteps : List TraceStep :=
          if refl.moving then
            [{ op := "Reflector Advance",
               msg := some ("Advancing reflector \"" ++ refl.label ++ "\"") }]
          else []
        let index4 := refl'.encode index3
        let reflStep : TraceStep :=
          { op := "Encode", component := some "Reflector",
            input := some index3, output := some index4 }
        let back := backwardPassGo 0 index4 wheels'
        let index5 := back.1
        let index6 := m.entryWheel.encode index5
        let statorStep2 : TraceStep :=
          { op := "Encode Reverse", component := some "Stator",
            input := some index5, output := some index6 }
        let index7 := plugboardApply m.plugboard index6
        let plugSteps2 : List TraceStep :=
          match m.plugboard with
          | some _ => [{ op := "Encode Reverse", component := some "Plugboard",
                         input := some index6, output := some index7 }]
          | none => []
        let trace : Trace :=
          { inputRaw := char, inputChar := some input, inputIndex := some index0,
            steps := plugSteps1 ++ [statorStep1] ++ fwd.2.2 ++ reflAdvSteps
              ++ [reflStep] ++ back.2 ++ [statorStep2] ++ plugSteps2,
            outputIndex := some index7,
            outputChar := some (getCharacterFromIndex index7 m.alphabet unknownAs) }
        Except.ok (getCharacterFromIndex index7 m.alphabet unknownAs, trace,
          { m with wheels := wheels', reflector := some refl' })

/-- The output-relevant projection of `processCharacter`: the produced
symbol and the updated machine state, with the purely diagnostic trace
dropped. -/
def pcOut (m : Machine) (char : List Char) (unknownAs : Char) :
    Except String (Char × Machine) :=
  (processCharacter m char unknownAs).map fun r => (r.1, r.2.2)

/-- The `msg.split('').map(...)` loop of `processMessage`: fold
`processCharacter` over the symbols, threading the machine state and
collecting outputs and traces. -/
def processMessageGo (unknownAs : Char) : Machine → List Char →
    Except String (List Char × List Trace × Machine)
  | m, [] => Except.ok ([], [], m)
  | m, c :: rest =>
    match processCharacter m [c] unknownAs with
    | Except.error e => Except.error e
    | Except.ok (out, tr, m') =>
      match processMessageGo unknownAs m' rest with
      | Except.error e => Except.error e
      | Except.ok (outs, trs, m'') => Except.ok (out :: outs, tr :: trs, m'')

/-- Source `Machine.processMessage(msg, unknownAs)` (source: `Machine.ts`): an
empty message returns `[msg, []]` immediately; otherwise every character is
processed in order. -/
def processMessage (m : Machine) (msg : List Char) (unknownAs : Char) :
    Except String (List Char × List Trace × Machine) :=
  if msg.length = 0 then Except.ok (msg, [], m)
  else processMessageGo unknownAs m msg

/-- Source `Machine.reset()` (source: `Machine.ts`): resets every wheel, then
calls `this.reflector?.reset()`.  The `Reflector` class has no `reset`
method, so with a reflector installed the call raises a `TypeError` *after*
the wheels were already reset.  Returns the state as left behind together
with the raised exception, if any. -/
def machineReset (m : Machine) : Machine × Option String :=
  let m' := { m with wheels := m.wheels.map Wheel.reset }
  match m.reflector with
  | none => (m', none)
  | some _ => (m', some "TypeError: this.reflector.reset is not a function")

/-- The `this.wheels.map(...)` part of `Machine.validate`: per wheel a
character-count mismatch finding, then `whl.validate().map(...)` — a
`TypeError` when `validate()` returned `undefined` (`none`), otherwise the
findings relabeled with the wheel index. -/
def machineValidateWheelsGo (m : Machine) (ind : Nat) : List Wheel → Except String (List String)
  | [] => Except.ok []
  | w :: rest =>
    let subErrs :=
      if w.numCharacters ≠ m.numCharacters then
        ["Machine \"" ++ m.label ++ "\" has an invalid wheel[" ++ toString ind
          ++ "], the number of characters does not match."]
      else []
    match w.validate with
    | none => Except.error "TypeError: Cannot read properties of undefined (reading 'map')"
    | some valErrs =>
      match machineValidateWheelsGo m (ind + 1) rest with
      | Except.error e => Except.error e
      | Except.ok restErrs =>
        Except.ok (subErrs
          ++ valErrs.map (fun s =>
            "Machine \"" ++ m.label ++ "\" has an invalid wheel[" ++ toString ind ++ "]: " ++ s ++ ".")
          ++ restErrs)

/-- The plugboard part of `Machine.validate`: mismatch finding plus
`errs.push(...this.plugboard.validate())` — a `TypeError` when `validate()`
returned `undefined`. -/
def machineValidatePlugboard (m : Machine) (acc : List String) : Except String (List String) :=
  match m.plugboard with
  | none => Except.ok acc
  | some p =>
    let misErrs :=
      if p.numCharacters ≠ m.numCharacters then
        ["Machine \"" ++ m.label ++ "\" has an invalid plugboard configuration, the number of characters does not match."]
      else []
    match p.validate with
    | none => Except.error "TypeError: undefined is not iterable"
    | some pErrs => Except.ok (acc ++ misErrs ++ pErrs)

/-- Source `Machine.validate()` (source: `Machine.ts`): entry-wheel mismatch check
and `errs.push(...this.entryWheel.validate())` (a `TypeError` when the
stator has no duplicates, because `Stator.validate` then returns
`undefined` and spreading `undefined` raises); then the wheels; then the
reflector (mismatch + spread of its `validate()`, or a missing-reflector
finding); then the plugboard. -/
def machineValidate (m : Machine) : Except String (List String) :=
  let errs0 :=
    if m.entryWheel.numCharacters ≠ m.numCharacters then
      ["Machine \"" ++ m.label ++ "\" has an invalid entry wheel (ETW), the number of characters does not match."]
    else []
  match m.entryWheel.validate with
  | none => Except.error "TypeError: undefined is not iterable"
  | some etwErrs =>
    match machineValidateWheelsGo m 0 m.wheels with
    | Except.error e => Except.error e
    | Except.ok wheelErrs =>
      match m.reflector with
      | some r =>
        let misErrs :=
          if r.numCharacters ≠ m.numCharacters then
            ["Machine \"" ++ m.label ++ "\" has an invalid reflector (UKW), the number of characters does not match."]
          else []
        match r.validate with
        | none => Except.error "TypeError: undefined is not iterable"
        | some rErrs =>
          machineValidatePlugboard m (errs0 ++ etwErrs ++ wheelErrs ++ misErrs ++ rErrs)
      | none =>
        machineValidatePlugboard m (errs0 ++ etwErrs ++ wheelErrs
          ++ ["Machine \"" ++ m.label ++ "\" does not have a Reflector installed."])

/-! ### Spec-shaped reference definitions

The following definitions follow the specification's words rather than the
source; they exist only to be compared against the source-shaped
definitions above. -/

/-- The advancement decisions of the source loop, separated from the
encoding: wheel 0 always advances, wheel `i > 0` advances when the
already-updated wheel `i-1` sits at a notch. -/
def advanceWheelsGo (first prevNotch : Bool) : List Wheel → List Wheel
  | [] => []
  | w :: rest =>
    let w' := if first || prevNotch then w.advance 1 else w
    w' :: advanceWheelsGo false w'.atNotch rest

/-- The advancement phase of one key press, as performed by the source. -/
def advanceWheels (ws : List Wheel) : List Wheel :=
  advanceWheelsGo true false ws

/-- The forward rotor pass as a plain fold in increasing index order. -/
def forwardEncode (ws : List Wheel) (index : Nat) : Nat :=
  ws.foldl (fun i w => w.encode i) index

/-- The return rotor pass as a plain fold in decreasing index order. -/
def backwardEncode (ws : List Wheel) (index : Nat) : Nat :=
  ws.foldr (fun w i => w.encode i) index

/-- The spec's §4.6 per-symbol pipeline with the phases separated:
plugboard, stator, rotor advancement, forward rotor pass, reflector
advance (once, if moving), reflector, return rotor pass, stator,
plugboard; it fails when no reflector is installed. -/
def processCharacterPhased (m : Machine) (c : Char) (unknownAs : Char) :
    Except String (Char × Machine) :=
  match m.reflector with
  | none =>
    Except.error ("Machine \"" ++ m.label ++ "\" does not have a reflector installed.")
  | some refl =>
    let index0 := getCharacterIndex c.toUpper m.alphabet unknownAs
    let index1 := plugboardApply m.plugboard index0
    let index2 := m.entryWheel.encode index1
    let wheels' := advanceWheels m.wheels
    let index3 := forwardEncode wheels' index2
    let refl' := if refl.moving then refl.advance 1 else refl
    let index4 := refl'.encode index3
    let index5 := backwardEncode wheels' index4
    let index6 := m.entryWheel.encode index5
    let index7 := plugboardApply m.plugboard index6
    Except.ok (getCharacterFromIndex index7 m.alphabet unknownAs,
      { m with wheels := wheels', reflector := some refl' })

/-- The stepping rule in the words of the claim: every advance decision is
made against the pre-advance snapshot (rotor `i > 0` advances iff rotor
`i-1` was at a notch *before any rotor advanced this step*), then the
decisions are applied in index order. -/
def advanceWheelsSnapshot (ws : List Wheel) : List Wheel :=
  ws.enum.map fun p =>
    if p.1 = 0 then p.2.advance 1
    else
      match ws.get? (p.1 - 1) with
      | some prev => if prev.atNotch then p.2.advance 1 else p.2
      | none => p.2

/-! ### Concrete witness machines -/

/-- A 4-symbol alphabet used by the concrete witness machines. -/
def demoAlphabet : List Char := ['A', 'B', 'C', 'D']

/-- Identity entry wheel over the 4-symbol alphabet. -/
def demoStator : Stator :=
  { label := "ETW", numCharacters := 4, mapping := [0, 1, 2, 3] }

/-- A single rotor with a duplicate-free, non-rotation wiring. -/
def demoWheel : Wheel :=
  { label := "W-I", numCharacters := 4, wiring := [0, 2, 1, 3], notches := [],
    startingPosition := 0, position := 0 }

/-- A static, self-inverse reflector. -/
def demoReflector : Reflector :=
  { label := "UKW", numCharacters := 4, wiring := [1, 0, 3, 2], moving := false,
    startingPosition := 0, position := 0 }

/-- A fully valid single-rotor machine in its starting configuration. -/
def demoMachine : Machine :=
  { label := "Demo", alphabet := demoAlphabet, numCharacters := 4,
    entryWheel := demoStator, wheels := [demoWheel],
    reflector := some demoReflector, plugboard := none }

/-- The demo rotor after its per-keypress advance (position 1). -/
def demoWheelAdvanced : Wheel :=
  demoWheel.advance 1

/-- Stepping witness, wheel 0: identity wiring, notch at position 1,
currently at position 0 — one step *before* its notch. -/
def demoStepW0 : Wheel :=
  { label := "S0", numCharacters := 4, wiring := [0, 1, 2, 3], notches := [1],
    startingPosition := 0, position := 0 }

/-- Stepping witness, wheel 1: identity wiring, no notches, position 0. -/
def demoStepW1 : Wheel :=
  { label := "S1", numCharacters := 4, wiring := [0, 1, 2, 3], notches := [],
    startingPosition := 0, position := 0 }

/-- A machine whose moving reflector and rotor have drifted away from
their starting positions, for exercising `reset`. -/
def demoDriftedMachine : Machine :=
  { label := "Drifted", alphabet := demoAlphabet, numCharacters := 4,
    entryWheel := demoStator,
    wheels := [{ demoWheel with position := 3 }],
    reflector := some { demoReflector with moving := true, position := 2 },
    plugboard := none }

/-- The position invariant of a rotating component: a positive character
count with current and starting position inside `[0, numCharacters)`. -/
def ReflInv (r : Reflector) : Prop :=
  0 < r.numCharacters ∧ r.position < r.numCharacters ∧ r.startingPosition < r.numCharacters

/-- Variant `demoReflector` with `moving` enabled, as produced by the `Reflector`
constructor. -/
def demoMovingReflector : Reflector :=
  { demoReflector with moving := true }

/-! ## Lemmas -/

theorem circular_lt (i : Int) (n : Nat) (hn : 0 < n) : circular i n < n := by
  have hpos : (0 : Int) < (n : Int) := by exact_mod_cast hn
  have hlt : i % (n : Int) < (n : Int) := Int.emod_lt_of_pos i hpos
  have hge : (0 : Int) ≤ i % (n : Int) := Int.emod_nonneg i (by omega)
  unfold circular
  omega

theorem stepEncodeWheelsGo_fst (ws : List Wheel) : ∀ (first prevNotch : Bool) (ind index : Nat),
    (stepEncodeWheelsGo first prevNotch ind index ws).1 = advanceWheelsGo first prevNotch ws := by
  induction ws with
  | nil => intro first prevNotch ind index; rfl
  | cons w rest ih =>
    intro first prevNotch ind index
    simp only [stepEncodeWheelsGo, advanceWheelsGo, ih]

theorem stepEncodeWheelsGo_index (ws : List Wheel) : ∀ (first prevNotch : Bool) (ind index : Nat),
    (stepEncodeWheelsGo first prevNotch ind index ws).2.1 =
      forwardEncode (advanceWheelsGo first prevNotch ws) index := by
  induction ws with
  | nil => intro first prevNotch ind index; rfl
  | cons w rest ih =>
    intro first prevNotch ind index
    simp only [stepEncodeWheelsGo, advanceWheelsGo, forwardEncode, List.foldl_cons, ih]

theorem backwardPassGo_fst (ws : List Wheel) : ∀ (ind index : Nat),
    (backwardPassGo ind index ws).1 = backwardEncode ws index := by
  induction ws with
  | nil => intro ind index; rfl
  | cons w rest ih =>
    intro ind index
    simp only [backwardPassGo, backwardEncode, List.foldr_cons, ih]

theorem processMessageGo_eq (u : Char) (m : Machine) (msg : List Char) :
    processMessageGo u m msg = processMessage m msg u := by
  cases msg with
  | nil => rfl
  | cons c rest => simp [processMessage]

theorem toUpper_toUpper (c : Char) : c.toUpper.toUpper = c.toUpper := by
  by_cases h : 97 ≤ c.toNat ∧ c.toNat ≤ 122
  · have hc : c.toUpper = Char.ofNat (c.toNat - 32) := by
      simp [Char.toUpper, h]
    rw [hc]
    obtain ⟨h1, h2⟩ := h
    set n := c.toNat with hn
    interval_cases n <;> decide
  · have hc : c.toUpper = c := by
      simp only [Char.toUpper]
      rw [if_neg h]
    rw [hc, hc]

theorem pcOut_congr (m : Machine) (u c₁ c₂ : Char) (h : c₁.toUpper = c₂.toUpper) :
    pcOut m [c₁] u = pcOut m [c₂] u := by
  unfold pcOut processCharacter
  cases m.reflector with
  | none => rfl
  | some refl => simp [h, Except.map]

/-! ## Claim theorems -/

/-- Claim C1: the claimed reciprocity fails on the code.  On the fully valid
`demoMachine` in its starting configuration, encoding `'B'` yields `'C'`,
but encoding `'C'` from the same starting configuration yields `'D'`, not
`'B'`: `processCharacter` from the reset configuration is not an involution
because the return rotor pass reuses the forward wiring table. -/
theorem claim1_reciprocity_fails_on_code :
    (pcOut demoMachine ['B'] 'X').map Prod.fst = Except.ok 'C'
    ∧ (pcOut demoMachine ['C'] 'X').map Prod.fst = Except.ok 'D'
    ∧ ('D' : Char) ≠ 'B' := by
  refine ⟨rfl, rfl, by decide⟩

/-- Claim C2: the return pass does *not* apply the inverse substitution.  For the
demo rotor in its advanced position, the return pass of the code
(`backwardPassGo`, which calls the same `encode` as the forward pass) maps
index 0 to 2, whereas the inverse substitution demanded by the spec maps
index 0 to 3. -/
theorem claim2_return_pass_uses_forward_table :
    (backwardPassGo 0 0 [demoWheelAdvanced]).1 = 2
    ∧ demoWheelAdvanced.encode 0 = 2
    ∧ demoWheelAdvanced.encodeInverse 0 = 3 :=
  ⟨rfl, rfl, rfl⟩

/-- Claim C3: the advance decisions are *not* made against the pre-advance
snapshot.  Wheel 0 starts one position before its notch (`atNotch = false`
before any advancement), so under the claimed snapshot rule wheel 1 must
not move; the code's loop advances wheel 0 onto its notch first and then,
seeing the post-advance state, advances wheel 1 as well. -/
theorem claim3_stepping_uses_post_advance_state :
    demoStepW0.atNotch = false
    ∧ ((stepEncodeWheelsGo true false 0 0 [demoStepW0, demoStepW1]).1).map Wheel.position = [1, 1]
    ∧ (advanceWheelsSnapshot [demoStepW0, demoStepW1]).map Wheel.position = [1, 0] :=
  ⟨rfl, rfl, rfl⟩

/-- Claim C4: `Machine.validate` raises on a fully valid machine.  The demo
machine's entry wheel has a duplicate-free mapping, so `Stator.validate`
returns `undefined` (`none`) and `errs.push(...this.entryWheel.validate())`
raises a `TypeError` instead of returning the (empty) findings list. -/
theorem claim4_validate_raises_on_valid_machine :
    findDuplicates demoStator.mapping = []
    ∧ Stator.validate demoMachine.entryWheel = none
    ∧ machineValidate demoMachine = Except.error "TypeError: undefined is not iterable" :=
  ⟨rfl, rfl, rfl⟩

/-- Claim C5: `Machine.reset` raises and does not restore the reflector.  On a
machine whose moving reflector has drifted to position 2 (starting position
0), `reset()` resets the wheels but then raises a `TypeError` because the
`Reflector` class has no `reset` method, leaving the reflector at position
2. -/
theorem claim5_reset_raises_and_skips_reflector :
    (machineReset demoDriftedMachine).2 = some "TypeError: this.reflector.reset is not a function"
    ∧ ((machineReset demoDriftedMachine).1.wheels.map Wheel.position) = [0]
    ∧ ((machineReset demoDriftedMachine).1.reflector.map Reflector.position) = some 2
    ∧ ((machineReset demoDriftedMachine).1.reflector.map Reflector.startingPosition) = some 0 :=
  ⟨rfl, rfl, rfl, rfl⟩

/-- Claim C6: the documented input-length error is never raised.
`processCharacter("")` raises the JavaScript `TypeError` produced by
`char[0].toUpperCase()` — a different error than the documented one — and
`processCharacter("AB")` raises nothing at all: it silently encodes the
first character. -/
theorem claim6_input_length_guard_is_dead :
    processCharacter demoMachine [] 'X'
      = Except.error "TypeError: Cannot read properties of undefined (reading 'toUpperCase')"
    ∧ ("TypeError: Cannot read properties of undefined (reading 'toUpperCase')" : String)
      ≠ "Machine.encode() recieved a character that was either empty, or longer than 1 character."
    ∧ (pcOut demoMachine ['A', 'B'] 'X').map Prod.fst = Except.ok 'A' := by
  refine ⟨rfl, by decide, rfl⟩

/-- Claim C7: for every machine, input symbol and fallback, `processCharacter`
performs exactly the claimed sequence — plugboard, stator, rotor
advancement followed by the forward rotor pass in increasing index order,
reflector advance (once, when moving) then reflector, rotors in decreasing
index order, stator, plugboard — and fails when no reflector is installed:
its output and state equal the phase-separated pipeline
`processCharacterPhased`. -/
theorem claim7_pipeline_order (m : Machine) (c : Char) (cs : List Char) (u : Char) :
    pcOut m (c :: cs) u = processCharacterPhased m c u := by
  unfold pcOut processCharacter processCharacterPhased
  cases m.reflector with
  | none => rfl
  | some refl =>
    simp [Except.map, stepEncodeWheelsGo_fst, stepEncodeWheelsGo_index, backwardPassGo_fst,
      advanceWheels]

/-- Claim C8: `processMessage` on the empty message returns the message
unchanged with an empty trace list and the machine untouched, without
raising; on `c :: rest` it equals processing `c` with `processCharacter`
and folding on — and a successful run yields exactly one trace and one
output symbol per input symbol. -/
theorem claim8_processMessage_folds (m : Machine) (u : Char) :
    processMessage m [] u = Except.ok ([], [], m)
    ∧ (∀ (c : Char) (rest : List Char),
        processMessage m (c :: rest) u =
          match processCharacter m [c] u with
          | Except.error e => Except.error e
          | Except.ok (out, tr, m') =>
            match processMessage m' rest u with
            | Except.error e => Except.error e
            | Except.ok (outs, trs, m'') => Except.ok (out :: outs, tr :: trs, m''))
    ∧ (∀ (msg outs : List Char) (trs : List Trace) (m' : Machine),
        processMessage m msg u = Except.ok (outs, trs, m') →
        trs.length = msg.length ∧ outs.length = msg.length) := by
  refine ⟨rfl, ?_, ?_⟩
  · intro c rest
    rw [← processMessageGo_eq]
    cases hpc : processCharacter m [c] u with
    | error e => simp [processMessageGo, hpc]
    | ok r =>
      obtain ⟨out, tr, m'⟩ := r
      simp only [processMessageGo, hpc, processMessageGo_eq]
  · intro msg
    induction msg generalizing m with
    | nil =>
      intro outs trs m' h
      rw [← processMessageGo_eq] at h
      simp only [processMessageGo] at h
      cases h
      exact ⟨rfl, rfl⟩
    | cons c rest ih =>
      intro outs trs m' h
      rw [← processMessageGo_eq] at h
      simp only [processMessageGo] at h
      cases hpc : processCharacter m [c] u with
      | error e => rw [hpc] at h; cases h
      | ok r =>
        obtain ⟨out, tr, m1⟩ := r
        rw [hpc] at h
        dsimp only at h
        cases hrest : processMessageGo u m1 rest with
        | error e => rw [hrest] at h; cases h
        | ok r2 =>
          obtain ⟨outs2, trs2, m2⟩ := r2
          rw [hrest] at h
          simp only [Except.ok.injEq, Prod.mk.injEq] at h
          obtain ⟨houts, htrs, hm⟩ := h
          subst houts
          subst htrs
          rw [processMessageGo_eq] at hrest
          have hlen := ih m1 outs2 trs2 m2 hrest
          simp [hlen.1, hlen.2]

/-- Claim C8 witness: a concrete three-symbol message processes successfully
with three output symbols and three traces. -/
theorem claim8_witness :
    (processMessage demoMachine ['B', 'A', 'D'] 'X').map (fun r => (r.1.length, r.2.1.length))
      = Except.ok (3, 3) := by
  obtain ⟨outs, trs, mOut, h⟩ :
      ∃ outs trs mOut,
        processMessage demoMachine ['B', 'A', 'D'] 'X' = Except.ok (outs, trs, mOut) :=
    ⟨_, _, _, rfl⟩
  have hl := (claim8_processMessage_folds demoMachine 'X').2.2 ['B', 'A', 'D'] outs trs mOut h
  rw [h]
  simp [Except.map, hl.1, hl.2]

/-- Claim C9: a freshly constructed reflector satisfies the position invariant
(positive character count, current and starting position in
`[0, numCharacters)`), `setup` with any integer re-establishes it and makes
the current position equal the starting position, `advance` with any
integer preserves it, and `advance` is the identity when `moving` is
false. -/
theorem claim9_reflector_position_invariant :
    (∀ (lab : String) (n : Nat) (w : List Nat) (mv : Bool) (r : Reflector),
        mkReflector lab n w mv = Except.ok r → ReflInv r)
    ∧ (∀ (r : Reflector), ReflInv r → ∀ s : Int,
        ReflInv (r.setup s) ∧ (r.setup s).position = (r.setup s).startingPosition)
    ∧ (∀ (r : Reflector), ReflInv r → ∀ s : Int, ReflInv (r.advance s))
    ∧ (∀ (r : Reflector), r.moving = false → ∀ s : Int, r.advance s = r) := by
  refine ⟨?_, ?_, ?_, ?_⟩
  · intro lab n w mv r h
    unfold mkReflector at h
    split_ifs at h with h1 h2 h3
    injection h with h'
    subst h'
    refine ⟨?_, ?_, ?_⟩
    · show 0 < n
      omega
    · show 0 < n
      omega
    · show 0 < n
      omega
  · intro r hr s
    obtain ⟨hn, hp, hsp⟩ := hr
    exact ⟨⟨hn, circular_lt _ _ hn, circular_lt _ _ hn⟩, rfl⟩
  · intro r hr s
    obtain ⟨hn, hp, hsp⟩ := hr
    unfold Reflector.advance
    split
    · exact ⟨hn, hp, hsp⟩
    · exact ⟨hn, circular_lt _ _ hn, hsp⟩
  · intro r hmv s
    simp [Reflector.advance, hmv]

/-- Claim C9 witness: the invariant instantiated on a concrete moving reflector,
including `setup` with a negative argument, a multi-step `advance`, and the
no-op `advance` of the static demo reflector. -/
theorem claim9_witness :
    ReflInv (Reflector.setup demoMovingReflector (-5))
    ∧ ReflInv (Reflector.advance demoMovingReflector 7)
    ∧ Reflector.advance demoReflector 3 = demoReflector := by
  have h1 := claim9_reflector_position_invariant.1 "UKW" 4 [1, 0, 3, 2] true
    demoMovingReflector rfl
  exact ⟨(claim9_reflector_position_invariant.2.1 demoMovingReflector h1 (-5)).1,
    claim9_reflector_position_invariant.2.2.1 demoMovingReflector h1 7,
    claim9_reflector_position_invariant.2.2.2 demoReflector rfl 3⟩

/-- Claim C10: the machine constructor stores the alphabet uppercased whatever
the case of its argument, and processing a lowercase letter produces the
same output symbol and machine state as processing its uppercase form. -/
theorem claim10_case_insensitive :
    (∀ (lab : String) (alpha : List Char) (etw : Stator) (ws : List Wheel)
        (ukw : Option Reflector) (pb : Option Plugboard) (m : Machine),
        mkMachine lab alpha etw ws ukw pb = Except.ok m →
        m.alphabet = alpha.map Char.toUpper)
    ∧ (∀ (m : Machine) (u c : Char), c.isLower = true →
        pcOut m [c] u = pcOut m [c.toUpper] u) := by
  constructor
  · intro lab alpha etw ws ukw pb m h
    unfold mkMachine at h
    split_ifs at h with h1 h2
    injection h with h'
    subst h'
    rfl
  · intro m u c hc
    exact pcOut_congr m u c c.toUpper (toUpper_toUpper c).symm

/-- Claim C10 witness: constructing the demo machine from the lowercase alphabet
string yields the uppercase alphabet, and encoding `'b'` equals encoding
`'B'`. -/
theorem claim10_witness :
    demoMachine.alphabet = ['a', 'b', 'c', 'd'].map Char.toUpper
    ∧ pcOut demoMachine ['b'] 'X' = pcOut demoMachine ['b'.toUpper] 'X' := by
  exact ⟨claim10_case_insensitive.1 "Demo" ['a', 'b', 'c', 'd'] demoStator [demoWheel]
      (some demoReflector) none demoMachine rfl,
    claim10_case_insensitive.2 demoMachine 'X' 'b' rfl⟩

end Enigma

